import Mathlib

/-!
# Verification of the SSAS form repository

Shallow embedding of the logic of `src/ssas`:

* `FormHelpers` — the pure utilities of `src/ssas/utils/form-helpers.ts`
  (date formatting/validation, currency formatting/parsing, phone
  formatting).
* `IndividualForm` — the conditional-visibility state machine of
  `src/ssas/components/ui/ssas/individual-form.tsx` (previous-address
  derivation, communication-address toggle, dual-nationality toggle) and
  the Zod schema `individualFormSchema`.
* `CorporateForm` — the Zod schema `corporateFormSchema` of
  `src/ssas/components/ui/ssas/corporate-form.tsx`.

Strings are Lean `String`s.  The JavaScript number type is modelled by
`ℚ` in the currency utilities (whose values are 2-decimal amounts, far
below any double-precision rounding) and by `ℤ` in the form state and the
schemas, whose number fields hold `parseInt` results and counts — no claim
settled here distinguishes integer from fractional field values.
-/

namespace FormHelpers

/-- Digit characters `'0'`–`'9'` as produced by decimal rendering. -/
def digitChar (d : Nat) : Char :=
  match d with
  | 0 => '0' | 1 => '1' | 2 => '2' | 3 => '3' | 4 => '4'
  | 5 => '5' | 6 => '6' | 7 => '7' | 8 => '8' | _ => '9'

/-- Numeric value of a digit character. -/
def charVal (c : Char) : Nat := c.toNat - 48

/-! ## Phone formatter

`formatPhoneNumber` in `form-helpers.ts`:

```
const cleaned = number.replace(/\D/g, "");
return cleaned.replace(/(\d{2})(\d{4})(\d{6})/, "+$1 $2 $3");
```

The second `replace` uses a non-global, unanchored regex: it replaces the
*leftmost* run of 12 consecutive digits (if any) with the regrouped
`+XX XXXX XXXXXX` form and leaves the rest of the string in place.
-/

/-- The digit-stripping pass `number.replace(/\D/g, "")`. -/
def digitsOnly (l : List Char) : List Char := l.filter Char.isDigit

/-- Does the regex `(\d{2})(\d{4})(\d{6})` match at the head of `l`? -/
def phoneMatchAt (l : List Char) : Bool :=
  decide (12 ≤ l.length) && (l.take 12).all Char.isDigit

/-- The replacement text `+$1 $2 $3` followed by the unmatched tail. -/
def phoneGroup (l : List Char) : List Char :=
  '+' :: l.take 2 ++ ' ' :: (l.drop 2).take 4 ++ ' ' :: (l.drop 6).take 6 ++ l.drop 12

/-- JS `String.replace` with the non-global regex `(\d{2})(\d{4})(\d{6})`:
replace the leftmost match, keep everything else. -/
def replacePhoneOnce : List Char → List Char
  | [] => []
  | c :: rest =>
      if phoneMatchAt (c :: rest) then phoneGroup (c :: rest)
      else c :: replacePhoneOnce rest

/-- `formatPhoneNumber` from `form-helpers.ts`. -/
def formatPhoneNumber (s : String) : String :=
  String.mk (replacePhoneOnce (digitsOnly s.toList))

/-- The digit-stripped form of the input, as a `String`. -/
def cleanedOf (s : String) : String := String.mk (digitsOnly s.toList)

/-! ## Date validator

`validateDate` in `form-helpers.ts` tests
`/^(0[1-9]|[12][0-9]|3[01])-(0[1-9]|1[0-2])-\d{4}$/`.
-/

/-- The day alternation `(0[1-9]|[12][0-9]|3[01])` on two characters. -/
def dayChars (a b : Char) : Bool :=
  (a = '0' && '1' ≤ b && b ≤ '9') ||
  ((a = '1' || a = '2') && '0' ≤ b && b ≤ '9') ||
  (a = '3' && (b = '0' || b = '1'))

/-- The month alternation `(0[1-9]|1[0-2])` on two characters. -/
def monthChars (a b : Char) : Bool :=
  (a = '0' && '1' ≤ b && b ≤ '9') || (a = '1' && (b = '0' || b = '1' || b = '2'))

/-- `validateDate` from `form-helpers.ts`: full-string match of
`^(0[1-9]|[12][0-9]|3[01])-(0[1-9]|1[0-2])-\d{4}$`. -/
def validateDate (s : String) : Bool :=
  match s.toList with
  | [d1, d2, h1, m1, m2, h2, y1, y2, y3, y4] =>
      dayChars d1 d2 && h1 = '-' && monthChars m1 m2 && h2 = '-' &&
      y1.isDigit && y2.isDigit && y3.isDigit && y4.isDigit
  | _ => false

/-- Specification-side reading of the pattern: ten characters
`dd-MM-yyyy` where the two day digits denote a value in 1..31, the two
month digits a value in 1..12, and the year is any four digits. -/
def specDatePattern (s : String) : Prop :=
  ∃ d1 d2 m1 m2 y1 y2 y3 y4 : Char,
    s.toList = [d1, d2, '-', m1, m2, '-', y1, y2, y3, y4] ∧
    d1.isDigit ∧ d2.isDigit ∧ m1.isDigit ∧ m2.isDigit ∧
    y1.isDigit ∧ y2.isDigit ∧ y3.isDigit ∧ y4.isDigit ∧
    1 ≤ 10 * charVal d1 + charVal d2 ∧ 10 * charVal d1 + charVal d2 ≤ 31 ∧
    1 ≤ 10 * charVal m1 + charVal m2 ∧ 10 * charVal m1 + charVal m2 ≤ 12

/-! ## Currency formatter and parser

`formatCurrency` in `form-helpers.ts`:

```
const num = typeof amount === "string" ? parseFloat(amount) : amount;
return new Intl.NumberFormat("en-GB", {style: "currency", currency: "GBP"}).format(num);
```

`parseCurrency`:

```
return parseFloat(value.replace(/[^0-9.-]+/g, ""));
```

Numbers are modelled by `ℚ`; JS `NaN` (the result of `parseFloat` on a
non-numeric string) is modelled by `Option.none`.
-/

/-- Value of a big-endian digit-character list. -/
def beVal (l : List Char) : ℕ := l.foldl (fun a c => 10 * a + charVal c) 0

/-- Modelled from the spec: JavaScript `parseFloat` (runtime library code,
not in `src/`).  Skips leading spaces, reads an optional sign and then the
longest prefix of the form `digits[.digits]`; the result is `none`
(JS `NaN`) when that prefix contains no digit.  The exponent form also
accepted by `parseFloat` is not modelled: no string produced or consumed by
the formatting utilities contains one. -/
def jsParseFloatL (l0 : List Char) : Option ℚ :=
  let l := l0.dropWhile (fun c => c = ' ')
  let signNeg : Bool := l.head? = some '-'
  let l2 := if l.head? = some '-' || l.head? = some '+' then l.tail else l
  let ips := l2.takeWhile Char.isDigit
  let rest := l2.dropWhile Char.isDigit
  let fps := if rest.head? = some '.' then rest.tail.takeWhile Char.isDigit else []
  if ips.isEmpty && fps.isEmpty then none
  else
    let q : ℚ := (beVal ips : ℚ) + (beVal fps : ℚ) / (10 : ℚ) ^ fps.length
    some (if signNeg then -q else q)

/-- `parseFloat` on a string is `jsParseFloatL` on its characters. -/
def jsParseFloat (s : String) : Option ℚ := jsParseFloatL s.toList

/-- The amount in pence after rounding to 2 decimal places, half away from
zero — the default `halfExpand` rounding of `Intl.NumberFormat`. -/
def intCents (x : ℚ) : ℤ := if 0 ≤ x then ⌊x * 100 + 1 / 2⌋ else -⌊-x * 100 + 1 / 2⌋

/-- `x` rounded to 2 decimal places (half away from zero). -/
def roundTo2 (x : ℚ) : ℚ := (intCents x : ℚ) / 100

/-- Little-endian decimal digit characters of `n` (empty for `0`). -/
def natToCharsRev (n : ℕ) : List Char := (Nat.digits 10 n).map digitChar

/-- Thousands grouping on a little-endian digit list: a comma after every
three digits (except at the end). -/
def groupRev : List Char → List Char
  | a :: b :: c :: d :: rest => a :: b :: c :: ',' :: groupRev (d :: rest)
  | l => l

/-- The integer part of a formatted amount, comma-grouped, big-endian. -/
def intPartChars (q : ℕ) : List Char :=
  if q = 0 then ['0'] else (groupRev (natToCharsRev q)).reverse

/-- The two fraction digits of a formatted amount (`f < 100`). -/
def fracChars (f : ℕ) : List Char := [digitChar (f / 10), digitChar (f % 10)]

/-- The integer part of a formatted amount without grouping commas,
big-endian — what the strip pass of `parseCurrency` recovers from
`intPartChars`. -/
def intDigits (q : ℕ) : List Char :=
  if q = 0 then ['0'] else (natToCharsRev q).reverse

/-- Modelled from the spec:
`Intl.NumberFormat("en-GB", {style: "currency", currency: "GBP"}).format`
(runtime library code, not in `src/`): round to 2 decimal places half away
from zero, prefix `£`, group thousands with commas, two fraction digits,
and a leading `-` for negative inputs. -/
def intlFormatGBP (x : ℚ) : String :=
  let c := intCents x
  String.mk ((if x < 0 then ['-'] else []) ++ '£' ::
    intPartChars (c.natAbs / 100) ++ '.' :: fracChars (c.natAbs % 100))

/-- The `number | string` argument type of `formatCurrency`. -/
inductive JSNumber where
  | num (x : ℚ)
  | str (s : String)

/-- `formatCurrency` from `form-helpers.ts`.  A string argument is passed
through `parseFloat` first; `Intl.NumberFormat` renders JS `NaN` as the
sentinel string `"£NaN"`. -/
def formatCurrency (v : JSNumber) : String :=
  match v with
  | .num x => intlFormatGBP x
  | .str s =>
      match jsParseFloat s with
      | some x => intlFormatGBP x
      | none => "£NaN"

/-- The character class `[0-9.-]` kept by `parseCurrency`'s strip pass. -/
def currencyKeep (c : Char) : Bool := c.isDigit || c = '.' || c = '-'

/-- The strip pass `value.replace(/[^0-9.-]+/g, "")`. -/
def stripCurrency (s : String) : String := String.mk (s.toList.filter currencyKeep)

/-- `parseCurrency` from `form-helpers.ts`; `none` models JS `NaN`. -/
def parseCurrency (s : String) : Option ℚ := jsParseFloat (stripCurrency s)

/-! ## Date formatter

`formatDate` in `form-helpers.ts` wraps
`format(new Date(date), "dd-MM-yyyy")` in a `try`/`catch` that returns the
input unchanged when date parsing fails (date-fns `format` throws a
`RangeError` on an invalid `Date`).
-/

/-- Modelled from the spec: the date-parsing front end
(`new Date(string)`, runtime library code not in `src/`), restricted to
ISO `yyyy-MM-dd` date strings; every other input yields an invalid date,
i.e. `none`.  Only the success/failure split matters to the claims settled
against it. -/
def jsParseDate (s : String) : Option (ℕ × ℕ × ℕ) :=
  match s.toList with
  | [y1, y2, y3, y4, h1, m1, m2, h2, d1, d2] =>
      if h1 = '-' ∧ h2 = '-' ∧
          y1.isDigit ∧ y2.isDigit ∧ y3.isDigit ∧ y4.isDigit ∧
          m1.isDigit ∧ m2.isDigit ∧ d1.isDigit ∧ d2.isDigit ∧
          1 ≤ 10 * charVal m1 + charVal m2 ∧ 10 * charVal m1 + charVal m2 ≤ 12 ∧
          1 ≤ 10 * charVal d1 + charVal d2 ∧ 10 * charVal d1 + charVal d2 ≤ 31 then
        some (beVal [y1, y2, y3, y4], 10 * charVal m1 + charVal m2,
          10 * charVal d1 + charVal d2)
      else none
  | _ => none

/-- The `"dd-MM-yyyy"` rendering of date-fns `format`. -/
def renderDDMMYYYY (ymd : ℕ × ℕ × ℕ) : String :=
  let y := ymd.1
  let m := ymd.2.1
  let d := ymd.2.2
  String.mk [digitChar (d / 10 % 10), digitChar (d % 10), '-',
    digitChar (m / 10 % 10), digitChar (m % 10), '-',
    digitChar (y / 1000 % 10), digitChar (y / 100 % 10),
    digitChar (y / 10 % 10), digitChar (y % 10)]

/-- `formatDate` from `form-helpers.ts`: render on success, pass the input
through unchanged when parsing fails. -/
def formatDate (s : String) : String :=
  match jsParseDate s with
  | some ymd => renderDDMMYYYY ymd
  | none => s

end FormHelpers

namespace Zod

/-- Modelled from the spec: Zod's built-in `.email()` format check is
library code not present under `src/`; it is modelled as a concrete format
predicate (a nonempty local part, a single `@`, a domain that contains a
dot).  No claim settled here depends on its fine structure, only on its
being a fixed check of the email field alone. -/
def emailValid (s : String) : Bool :=
  let l := s.toList
  let localPart := l.takeWhile (fun c => c ≠ '@')
  match l.dropWhile (fun c => c ≠ '@') with
  | '@' :: domain =>
      !localPart.isEmpty && !domain.isEmpty &&
      !domain.contains '@' && domain.contains '.'
  | _ => false

/-- Is every character of `s` a decimal digit? (`\d` of the phone regexes.) -/
def allDigits (s : String) : Bool := s.toList.all Char.isDigit

end Zod

namespace IndividualForm

open Zod

/-- One entry of `previousAddresses` (shape shared by the Zod schema and
the form state). -/
structure PrevAddressRecord where
  address1 : String
  address2 : String
  address3 : String
  address4 : String
  postcode : String
  country : String
  yearsAtAddress : ℤ
  monthsAtAddress : ℤ
deriving DecidableEq, Repr

/-- The entry pushed by `handleAddressTimeChange` / `addPreviousAddress`:
every string field empty, both durations `0`. -/
def emptyPrevAddress : PrevAddressRecord :=
  { address1 := "", address2 := "", address3 := "", address4 := "",
    postcode := "", country := "", yearsAtAddress := 0, monthsAtAddress := 0 }

/-- The nested `communicationAddress` record (six string fields). -/
structure CommAddressRecord where
  address1 : String
  address2 : String
  address3 : String
  address4 : String
  postcode : String
  country : String
deriving DecidableEq, Repr

/-- The record allocated by `handleCommunicationAddressChange(false)`. -/
def emptyCommAddress : CommAddressRecord :=
  { address1 := "", address2 := "", address3 := "", address4 := "",
    postcode := "", country := "" }

/-- The part of the `IndividualForm` component state the visibility
handlers read and write: the three `useState` flags plus the form fields
they are driven by. -/
structure FormState where
  showPreviousAddresses : Bool
  showCommunicationAddress : Bool
  showSecondNationality : Bool
  yearsAtAddress : ℤ
  monthsAtAddress : ℤ
  previousAddresses : List PrevAddressRecord
  isCommunicationAddress : Bool
  communicationAddress : Option CommAddressRecord
  hasDualNationality : Bool
  secondNationality : String
deriving DecidableEq

/-- The component's initial state: the three `useState(false)` flags and
the `defaultValues` of `useForm`. -/
def initialState : FormState :=
  { showPreviousAddresses := false, showCommunicationAddress := false,
    showSecondNationality := false, yearsAtAddress := 0,
    monthsAtAddress := 0, previousAddresses := [],
    isCommunicationAddress := true, communicationAddress := none,
    hasDualNationality := false, secondNationality := "" }

/-- `totalMonths` as computed in `handleAddressTimeChange`. -/
def totalMonths (s : FormState) : ℤ := s.yearsAtAddress * 12 + s.monthsAtAddress

/-- `handleAddressTimeChange` from `individual-form.tsx`: reveal and seed
the previous-address list when the duration drops below 36 months while
the section is hidden; hide and clear it when the duration reaches 36
months while the section is shown; otherwise do nothing. -/
def handleAddressTimeChange (s : FormState) : FormState :=
  if totalMonths s < 36 ∧ s.showPreviousAddresses = false then
    { s with showPreviousAddresses := true, previousAddresses := [emptyPrevAddress] }
  else if 36 ≤ totalMonths s ∧ s.showPreviousAddresses = true then
    { s with showPreviousAddresses := false, previousAddresses := [] }
  else s

/-- The `onChange` of the years/months inputs: write the field, then run
`handleAddressTimeChange`. -/
def setDuration (s : FormState) (y m : ℤ) : FormState :=
  { s with yearsAtAddress := y, monthsAtAddress := m }

/-- A duration edit as wired in the component: set the two fields, then
recompute the previous-address visibility. -/
def durationChange (s : FormState) (y m : ℤ) : FormState :=
  handleAddressTimeChange (setDuration s y m)

/-- `handleCommunicationAddressChange` from `individual-form.tsx`,
together with the checkbox's `field.onChange(checked)`. -/
def handleCommunicationAddressChange (checked : Bool) (s : FormState) : FormState :=
  if checked then
    { s with
        isCommunicationAddress := checked,
        showCommunicationAddress := false,
        communicationAddress := none }
  else
    { s with
        isCommunicationAddress := checked,
        showCommunicationAddress := true,
        communicationAddress := some emptyCommAddress }

/-- `handleDualNationalityChange` from `individual-form.tsx`, together
with the checkbox's `field.onChange(checked)`. -/
def handleDualNationalityChange (checked : Bool) (s : FormState) : FormState :=
  if checked then
    { s with
        hasDualNationality := checked,
        showSecondNationality := checked }
  else
    { s with
        hasDualNationality := checked,
        showSecondNationality := checked,
        secondNationality := "" }

/-- `addPreviousAddress` from `individual-form.tsx`: append one empty
entry, but only while fewer than 3 entries exist. -/
def addPreviousAddress (s : FormState) : FormState :=
  if s.previousAddresses.length < 3 then
    { s with previousAddresses := s.previousAddresses ++ [emptyPrevAddress] }
  else s

/-- The user events that touch the modelled state, as wired in the
component's markup. -/
inductive Event where
  | duration (y m : ℤ)
  | addPrev
  | commToggle (checked : Bool)
  | dualToggle (checked : Bool)
  | setSecondNationality (v : String)
  | editPrev (i : ℕ) (p : PrevAddressRecord)

/-- One event of the form session. `editPrev` is the per-field editing of
an existing previous-address entry (`previousAddresses.${index}.…`
inputs), which replaces the entry in place. -/
def step (s : FormState) : Event → FormState
  | .duration y m => durationChange s y m
  | .addPrev => addPreviousAddress s
  | .commToggle c => handleCommunicationAddressChange c s
  | .dualToggle c => handleDualNationalityChange c s
  | .setSecondNationality v => { s with secondNationality := v }
  | .editPrev i p => { s with previousAddresses := s.previousAddresses.set i p }

/-- States of the form session reachable from the mount state. -/
inductive Reachable : FormState → Prop where
  | init : Reachable initialState
  | step : ∀ {s : FormState} (e : Event), Reachable s → Reachable (step s e)

/-! ## The Zod schema `individualFormSchema`

A record of the schema's shape; `z.string().optional()` fields are
`Option String`, `z.number()` fields are `ℤ` (see the header note).  The validator below is the
conjunction of the schema's field rules.
-/

/-- The rules of one `previousAddresses` entry in `individualFormSchema`. -/
def validPrevAddress (p : PrevAddressRecord) : Bool :=
  1 ≤ p.address1.length && 1 ≤ p.address2.length &&
  1 ≤ p.postcode.length && 1 ≤ p.country.length &&
  0 ≤ p.yearsAtAddress && 0 ≤ p.monthsAtAddress && p.monthsAtAddress ≤ 11

/-- The rules of the nested `communicationAddress` object. -/
def validCommAddress (c : CommAddressRecord) : Bool :=
  1 ≤ c.address1.length && 1 ≤ c.address2.length &&
  1 ≤ c.postcode.length && 1 ≤ c.country.length

/-- The shape of `individualFormSchema`. -/
structure IndividualRecord where
  pstrId : String
  employeeId : ℤ
  title : String
  firstName : String
  middleName : Option String
  surname : String
  isSigner : Bool
  isTrusteeOfScheme : Bool
  dateOfBirth : String
  gender : String
  primaryNationality : String
  countryOfBirth : String
  hasDualNationality : Bool
  secondNationality : Option String
  telephone : String
  mobile : String
  email : String
  typeOfEmployment : String
  occupation : String
  marketingPreferences : List String
  address1 : String
  address2 : String
  address3 : Option String
  address4 : Option String
  postcode : String
  country : String
  isCurrentAddress : Bool
  isPermanentAddress : Bool
  isCommunicationAddress : Bool
  yearsAtAddress : ℤ
  monthsAtAddress : ℤ
  previousAddresses : List PrevAddressRecord
  communicationAddress : Option CommAddressRecord
  taxContributingCountry : List String
  foreignTinId : Option String

/-- The whole-record acceptance test of `individualFormSchema`: the
conjunction of every field rule declared in the schema.  Boolean fields,
`optional()` strings, and `marketingPreferences` carry no constraint;
`secondNationality` in particular is `z.string().optional()` with no
cross-field rule. -/
def individualFormValid (r : IndividualRecord) : Bool :=
  1 ≤ r.pstrId.length &&
  1 ≤ r.employeeId &&
  1 ≤ r.title.length &&
  1 ≤ r.firstName.length &&
  1 ≤ r.surname.length &&
  1 ≤ r.dateOfBirth.length &&
  1 ≤ r.gender.length &&
  1 ≤ r.primaryNationality.length &&
  1 ≤ r.countryOfBirth.length &&
  (r.telephone.length = 14 && allDigits r.telephone) &&
  (r.mobile.length = 10 && allDigits r.mobile) &&
  emailValid r.email &&
  1 ≤ r.typeOfEmployment.length &&
  1 ≤ r.occupation.length &&
  1 ≤ r.address1.length &&
  1 ≤ r.address2.length &&
  (1 ≤ r.postcode.length && r.postcode.length ≤ 8) &&
  1 ≤ r.country.length &&
  0 ≤ r.yearsAtAddress &&
  (0 ≤ r.monthsAtAddress && r.monthsAtAddress ≤ 11) &&
  r.previousAddresses.all validPrevAddress &&
  (match r.communicationAddress with
    | none => true
    | some c => validCommAddress c) &&
  1 ≤ r.taxContributingCountry.length

/-- A record satisfying every rule of `individualFormSchema`, used as the
concrete instantiation of the validator theorems. -/
def sampleIndividual : IndividualRecord :=
  { pstrId := "PSTR1", employeeId := 1, title := "Mr", firstName := "Ann",
    middleName := none, surname := "Lee", isSigner := false,
    isTrusteeOfScheme := false, dateOfBirth := "01-01-1990", gender := "F",
    primaryNationality := "British", countryOfBirth := "United Kingdom",
    hasDualNationality := false, secondNationality := some "",
    telephone := "00441234567890", mobile := "0712345678",
    email := "ann@example.co", typeOfEmployment := "Employed",
    occupation := "Engineer", marketingPreferences := [],
    address1 := "1", address2 := "High Street", address3 := none,
    address4 := none, postcode := "AB1 2CD", country := "United Kingdom",
    isCurrentAddress := true, isPermanentAddress := true,
    isCommunicationAddress := true, yearsAtAddress := 3,
    monthsAtAddress := 0, previousAddresses := [],
    communicationAddress := none, taxContributingCountry := ["United Kingdom"],
    foreignTinId := none }

end IndividualForm

namespace CorporateForm

open Zod

/-- One `contributorManagement` entry of `corporateFormSchema`. -/
structure ManagementRecord where
  firstName : String
  middleName : Option String
  surname : String
  position : String

/-- The rules of one `contributorManagement` entry. -/
def validManagement (p : ManagementRecord) : Bool :=
  1 ≤ p.firstName.length && 1 ≤ p.surname.length && 1 ≤ p.position.length

/-- The shape of `corporateFormSchema`. -/
structure CorporateRecord where
  pstrId : String
  pensionSchemeName : String
  contactName : String
  positionInOrganization : String
  pensionProvider : String
  telephone : String
  mobile : String
  email : String
  addressType : String
  address1 : String
  address2 : String
  address3 : Option String
  address4 : Option String
  postcode : String
  country : String
  isCurrentAddress : Bool
  isPermanentAddress : Bool
  isCommunicationAddress : Bool
  howManyToSign : ℤ
  howManyFromCorporateTrustee : ℤ
  howManyMembers : ℤ
  isOccupationalScheme : Bool
  permitAssignmentOfInterest : Bool
  hasDeductionFromEmployeeWages : Bool
  dateOfRegistration : String
  hasCorporateTrustee : Bool
  depositPerAnnum : ℤ
  annualOutgoings : ℤ
  anticipatedActivity : ℤ
  anticipatedTransactions : ℤ
  countryOfPayments : List String
  schemeRegistrationCountry : String
  contributorLegalName : String
  contributorTradingName : Option String
  contributorAddress1 : String
  contributorAddress2 : Option String
  contributorAddress3 : Option String
  contributorAddress4 : Option String
  contributorPostcode : String
  contributorCountry : String
  contributorDateOfIncorporation : String
  contributorDateOfRegistration : String
  contributorDateStartedTrading : String
  contributorNatureOfBusiness : String
  contributorCountriesOperatesIn : List String
  contributorManagement : List ManagementRecord
  professionalCoSignatory : String
  coSignCompanyName : String
  coSignAddress : String
  coSignTelephone : String
  coSignEmail : String
  regulatorReferenceNumber : String
  tcAcknowledgement : Bool
  accountType : List String
  openingBalance : String
  sourceOfInitialFunds : String
  sourceOfFunds : List String
  otherSourceOfFunds : Option String
  valueOfFunds : String
  countryOfFunds : List String

/-- One field rule: no issue when `ok` holds, otherwise the field path. -/
def errIf (ok : Bool) (name : String) : List String := if ok then [] else [name]

/-- The field paths `corporateFormSchema` reports an issue on, in schema
order — Zod collects an issue for every violated field rule of the whole
record.  An empty list means the record is accepted. -/
def corporateErrors (r : CorporateRecord) : List String := List.flatten
  [ errIf (1 ≤ r.pstrId.length) "pstrId",
    errIf (1 ≤ r.pensionSchemeName.length) "pensionSchemeName",
    errIf (1 ≤ r.contactName.length) "contactName",
    errIf (1 ≤ r.positionInOrganization.length) "positionInOrganization",
    errIf (1 ≤ r.pensionProvider.length) "pensionProvider",
    errIf (r.telephone.length = 14 && allDigits r.telephone) "telephone",
    errIf (r.mobile.length = 14 && allDigits r.mobile) "mobile",
    errIf (emailValid r.email && r.email.length ≤ 65) "email",
    errIf (1 ≤ r.addressType.length) "addressType",
    errIf (1 ≤ r.address1.length) "address1",
    errIf (1 ≤ r.address2.length) "address2",
    errIf (1 ≤ r.postcode.length) "postcode",
    errIf (1 ≤ r.country.length) "country",
    errIf (1 ≤ r.howManyToSign) "howManyToSign",
    errIf (0 ≤ r.howManyFromCorporateTrustee) "howManyFromCorporateTrustee",
    errIf (1 ≤ r.howManyMembers) "howManyMembers",
    errIf (1 ≤ r.dateOfRegistration.length) "dateOfRegistration",
    errIf (0 ≤ r.depositPerAnnum) "depositPerAnnum",
    errIf (0 ≤ r.annualOutgoings) "annualOutgoings",
    errIf (0 ≤ r.anticipatedActivity) "anticipatedActivity",
    errIf (0 ≤ r.anticipatedTransactions) "anticipatedTransactions",
    errIf (1 ≤ r.countryOfPayments.length) "countryOfPayments",
    errIf (r.schemeRegistrationCountry = "United Kingdom") "schemeRegistrationCountry",
    errIf (1 ≤ r.contributorLegalName.length) "contributorLegalName",
    errIf (1 ≤ r.contributorAddress1.length) "contributorAddress1",
    errIf (r.contributorPostcode.length ≤ 8) "contributorPostcode",
    errIf (1 ≤ r.contributorCountry.length) "contributorCountry",
    errIf (1 ≤ r.contributorDateOfIncorporation.length) "contributorDateOfIncorporation",
    errIf (1 ≤ r.contributorDateOfRegistration.length) "contributorDateOfRegistration",
    errIf (1 ≤ r.contributorDateStartedTrading.length) "contributorDateStartedTrading",
    errIf (1 ≤ r.contributorNatureOfBusiness.length) "contributorNatureOfBusiness",
    errIf (1 ≤ r.contributorCountriesOperatesIn.length) "contributorCountriesOperatesIn",
    errIf (1 ≤ r.contributorManagement.length &&
      r.contributorManagement.all validManagement) "contributorManagement",
    errIf (1 ≤ r.professionalCoSignatory.length) "professionalCoSignatory",
    errIf (1 ≤ r.coSignCompanyName.length) "coSignCompanyName",
    errIf (1 ≤ r.coSignAddress.length) "coSignAddress",
    errIf (1 ≤ r.coSignTelephone.length) "coSignTelephone",
    errIf (emailValid r.coSignEmail) "coSignEmail",
    errIf (1 ≤ r.regulatorReferenceNumber.length) "regulatorReferenceNumber",
    errIf (r.tcAcknowledgement = true) "tcAcknowledgement",
    errIf (1 ≤ r.accountType.length) "accountType",
    errIf (1 ≤ r.openingBalance.length) "openingBalance",
    errIf (1 ≤ r.sourceOfInitialFunds.length) "sourceOfInitialFunds",
    errIf (1 ≤ r.sourceOfFunds.length) "sourceOfFunds",
    errIf (1 ≤ r.valueOfFunds.length) "valueOfFunds",
    errIf (1 ≤ r.countryOfFunds.length) "countryOfFunds"]

/-- Whole-record acceptance: no field rule of `corporateFormSchema` is
violated. -/
def corporateFormValid (r : CorporateRecord) : Bool := corporateErrors r = []

/-- A record violating only the `schemeRegistrationCountry` literal rule,
used as the concrete instantiation of the validator theorems. -/
def badCountryCorporate : CorporateRecord :=
  { pstrId := "PSTR1", pensionSchemeName := "Scheme", contactName := "Ann Lee",
    positionInOrganization := "Director", pensionProvider := "Provider",
    telephone := "00441234567890", mobile := "00447123456789",
    email := "ann@example.co", addressType := "Registered", address1 := "1",
    address2 := "High Street", address3 := none, address4 := none,
    postcode := "AB1 2CD", country := "United Kingdom",
    isCurrentAddress := true, isPermanentAddress := false,
    isCommunicationAddress := false, howManyToSign := 2,
    howManyFromCorporateTrustee := 0, howManyMembers := 3,
    isOccupationalScheme := false, permitAssignmentOfInterest := false,
    hasDeductionFromEmployeeWages := false, dateOfRegistration := "01-01-2020",
    hasCorporateTrustee := false, depositPerAnnum := 1000,
    annualOutgoings := 100, anticipatedActivity := 10,
    anticipatedTransactions := 10, countryOfPayments := ["United Kingdom"],
    schemeRegistrationCountry := "France", contributorLegalName := "Acme Ltd",
    contributorTradingName := none, contributorAddress1 := "2",
    contributorAddress2 := none, contributorAddress3 := none,
    contributorAddress4 := none, contributorPostcode := "AB1 2CD",
    contributorCountry := "United Kingdom",
    contributorDateOfIncorporation := "01-01-2000",
    contributorDateOfRegistration := "01-01-2000",
    contributorDateStartedTrading := "01-01-2000",
    contributorNatureOfBusiness := "Trade",
    contributorCountriesOperatesIn := ["United Kingdom"],
    contributorManagement :=
      [{ firstName := "Bo", middleName := none, surname := "Ng", position := "CEO" }],
    professionalCoSignatory := "Yes", coSignCompanyName := "Sig Ltd",
    coSignAddress := "3 Road", coSignTelephone := "01234567890",
    coSignEmail := "sig@example.co", regulatorReferenceNumber := "R1",
    tcAcknowledgement := true, accountType := ["Deposit"],
    openingBalance := "1000", sourceOfInitialFunds := "Savings",
    sourceOfFunds := ["Savings"], otherSourceOfFunds := none,
    valueOfFunds := "1000", countryOfFunds := ["United Kingdom"] }

/-- `badCountryCorporate` with the one fixed-value field set to the
accepted literal. -/
def goodCorporate : CorporateRecord :=
  { badCountryCorporate with schemeRegistrationCountry := "United Kingdom" }

end CorporateForm

/-!
## Theorems

Helper lemmas first, then one theorem per claim (with its witness or
counterexample where required).
-/

namespace FormHelpers

/-- Characters are equal exactly when their code points are. -/
theorem char_eq_iff (a b : Char) : a = b ↔ a.toNat = b.toNat :=
  ⟨fun h => h ▸ rfl, fun h => Char.ext (UInt32.ext h)⟩

/-- Character order is code-point order. -/
theorem char_le_iff (a b : Char) : a ≤ b ↔ a.toNat ≤ b.toNat := by
  rw [Char.le_def, UInt32.le_def, BitVec.le_def]
  rfl

/-- `Char.isDigit` in terms of code points. -/
theorem isDigit_iff (c : Char) : c.isDigit = true ↔ 48 ≤ c.toNat ∧ c.toNat ≤ 57 := by
  simp [Char.isDigit, decide_eq_true_iff, char_le_iff]
  rfl

/-- The day alternation of `validateDate`'s regex accepts exactly the
two-digit groups with value 1..31. -/
theorem dayChars_iff (a b : Char) :
    dayChars a b = true ↔
      (a.isDigit = true ∧ b.isDigit = true ∧
       1 ≤ 10 * charVal a + charVal b ∧ 10 * charVal a + charVal b ≤ 31) := by
  simp only [dayChars, Bool.or_eq_true, Bool.and_eq_true, decide_eq_true_iff,
    char_eq_iff, char_le_iff, isDigit_iff, charVal,
    show ('0' : Char).toNat = 48 from rfl, show ('1' : Char).toNat = 49 from rfl,
    show ('2' : Char).toNat = 50 from rfl, show ('3' : Char).toNat = 51 from rfl,
    show ('9' : Char).toNat = 57 from rfl]
  omega

/-- The month alternation of `validateDate`'s regex accepts exactly the
two-digit groups with value 1..12. -/
theorem monthChars_iff (a b : Char) :
    monthChars a b = true ↔
      (a.isDigit = true ∧ b.isDigit = true ∧
       1 ≤ 10 * charVal a + charVal b ∧ 10 * charVal a + charVal b ≤ 12) := by
  simp only [monthChars, Bool.or_eq_true, Bool.and_eq_true, decide_eq_true_iff,
    char_eq_iff, char_le_iff, isDigit_iff, charVal,
    show ('0' : Char).toNat = 48 from rfl, show ('1' : Char).toNat = 49 from rfl,
    show ('2' : Char).toNat = 50 from rfl, show ('9' : Char).toNat = 57 from rfl]
  omega

/-- C10: `validateDate` checks only digit grouping, not calendar
validity: it accepts exactly the strings `dd-MM-yyyy` with `dd` in 01–31,
`MM` in 01–12 and `yyyy` four digits (rejecting every other string), and
in particular accepts the calendar-impossible `"31-02-2024"`. -/
theorem validateDate_digit_grouping_only :
    (∀ s : String, validateDate s = true ↔ specDatePattern s) ∧
    validateDate "31-02-2024" = true := by
  constructor
  · intro s
    unfold validateDate specDatePattern
    split
    · rename_i d1 d2 h1 m1 m2 h2 y1 y2 y3 y4 heq
      constructor
      · intro h
        simp only [Bool.and_eq_true, decide_eq_true_iff] at h
        obtain ⟨⟨⟨⟨⟨⟨⟨hday, hh1⟩, hmon⟩, hh2⟩, hy1⟩, hy2⟩, hy3⟩, hy4⟩ := h
        rw [dayChars_iff] at hday
        rw [monthChars_iff] at hmon
        exact ⟨d1, d2, m1, m2, y1, y2, y3, y4, by rw [heq, hh1, hh2],
          hday.1, hday.2.1, hmon.1, hmon.2.1, hy1, hy2, hy3, hy4,
          hday.2.2.1, hday.2.2.2, hmon.2.2.1, hmon.2.2.2⟩
      · rintro ⟨e1, e2, e3, e4, e5, e6, e7, e8, hl, q1, q2, q3, q4, q5, q6, q7, q8,
          b1, b2, b3, b4⟩
        rw [heq] at hl
        injection hl with j1 hl; injection hl with j2 hl; injection hl with j3 hl
        injection hl with j4 hl; injection hl with j5 hl; injection hl with j6 hl
        injection hl with j7 hl; injection hl with j8 hl; injection hl with j9 hl
        injection hl with j10 hl
        subst j1; subst j2; subst j3; subst j4; subst j5
        subst j6; subst j7; subst j8; subst j9; subst j10
        simp only [Bool.and_eq_true, decide_eq_true_iff]
        exact ⟨⟨⟨⟨⟨⟨⟨(dayChars_iff _ _).mpr ⟨q1, q2, b1, b2⟩, trivial⟩,
          (monthChars_iff _ _).mpr ⟨q3, q4, b3, b4⟩⟩, trivial⟩, q5⟩, q6⟩, q7⟩, q8⟩
    · rename_i hno
      constructor
      · intro h; exact absurd h (by simp)
      · rintro ⟨e1, e2, e3, e4, e5, e6, e7, e8, hl, rest⟩
        exact absurd hl (by exact hno e1 e2 '-' e3 e4 '-' e5 e6 e7 e8)
  · decide

/-- Filtering keeps every member of an all-digit list. -/
theorem all_isDigit_digitsOnly (l : List Char) : (digitsOnly l).all Char.isDigit = true := by
  simp only [digitsOnly, List.all_eq_true]
  intro a ha
  exact (List.mem_filter.mp ha).2

/-- Below 12 characters the phone regex never matches, at any position. -/
theorem replacePhoneOnce_of_short (l : List Char) (h : l.length < 12) :
    replacePhoneOnce l = l := by
  induction l with
  | nil => rfl
  | cons c rest ih =>
      rw [replacePhoneOnce]
      have hm : phoneMatchAt (c :: rest) = false := by
        simp only [phoneMatchAt, Bool.and_eq_false_iff, decide_eq_false_iff_not]
        left
        omega
      rw [hm]
      simp only [if_neg (by simp : ¬ (false = true))]
      have hr : rest.length < 12 := by simp at h; omega
      rw [ih hr]

/-- On an all-digit list of 12 or more characters the phone regex matches
at position 0, so the leftmost-match replacement fires at the head. -/
theorem replacePhoneOnce_of_long (l : List Char) (hd : l.all Char.isDigit = true)
    (h : 12 ≤ l.length) : replacePhoneOnce l = phoneGroup l := by
  match l with
  | [] => simp at h
  | c :: rest =>
      rw [replacePhoneOnce]
      have hm : phoneMatchAt (c :: rest) = true := by
        simp only [phoneMatchAt, Bool.and_eq_true, decide_eq_true_iff]
        refine ⟨h, ?_⟩
        simp only [List.all_eq_true]
        intro a ha
        exact (List.all_eq_true.mp hd) a (List.take_subset _ _ ha)
      rw [hm]
      simp

/-- C1 (counterexample): on an input whose digit-stripped form has 13
digits — not 12 — `formatPhoneNumber` does NOT return the digit-stripped
input unchanged: the unanchored regex regroups the first 12 digits. -/
theorem formatPhoneNumber_thirteen_digits_not_passthrough :
    cleanedOf "1234567890123" = "1234567890123" ∧
    (cleanedOf "1234567890123").length ≠ 12 ∧
    formatPhoneNumber "1234567890123" ≠ cleanedOf "1234567890123" := by
  refine ⟨rfl, by decide, by decide⟩

/-- C1 (amended): `formatPhoneNumber` is a passthrough of the
digit-stripped input exactly when fewer than 12 digits remain after
stripping; with 12 or more digits the first twelve are regrouped as
`+XX XXXX XXXXXX` and any further digits are appended unchanged. -/
theorem formatPhoneNumber_passthrough_iff_short (s : String) :
    formatPhoneNumber s =
      if (digitsOnly s.toList).length < 12
      then cleanedOf s
      else String.mk (phoneGroup (digitsOnly s.toList)) := by
  unfold formatPhoneNumber cleanedOf
  by_cases h : (digitsOnly s.toList).length < 12
  · rw [if_pos h, replacePhoneOnce_of_short _ h]
  · rw [if_neg h, replacePhoneOnce_of_long _ (all_isDigit_digitsOnly _) (by omega)]

end FormHelpers

namespace IndividualForm

/-- C2: the address-duration update is the threshold transition: from a
hidden previous-addresses section, a duration change with
`totalMonths < 36` shows the section and seeds exactly one entry with all
string fields empty and both durations `0`; from a shown section, a
duration change with `totalMonths ≥ 36` hides the section and clears the
list. -/
theorem addressTime_threshold_transitions (s : FormState) (y m : ℤ) :
    (s.showPreviousAddresses = false → y * 12 + m < 36 →
      (durationChange s y m).showPreviousAddresses = true ∧
      (durationChange s y m).previousAddresses = [emptyPrevAddress]) ∧
    (s.showPreviousAddresses = true → 36 ≤ y * 12 + m →
      (durationChange s y m).showPreviousAddresses = false ∧
      (durationChange s y m).previousAddresses = []) := by
  constructor
  · intro h1 h2
    unfold durationChange handleAddressTimeChange setDuration totalMonths
    split_ifs with hc1 hc2
    · exact ⟨rfl, rfl⟩
    · exact absurd ⟨h2, h1⟩ hc1
    · exact absurd ⟨h2, h1⟩ hc1
  · intro h1 h2
    unfold durationChange handleAddressTimeChange setDuration totalMonths
    split_ifs with hc1 hc2
    · have hlt : y * 12 + m < 36 := hc1.1
      exact absurd hlt (not_lt.mpr h2)
    · exact ⟨rfl, rfl⟩
    · exact absurd ⟨h2, h1⟩ hc2

/-- C2 witness: starting from the mount state, 2 years 11 months
(35 months) reveals the section with one empty entry; then 3 years
0 months (36 months) hides it and clears the list. -/
theorem addressTime_threshold_transitions_witness :
    ((durationChange initialState 2 11).showPreviousAddresses = true ∧
     (durationChange initialState 2 11).previousAddresses = [emptyPrevAddress]) ∧
    ((durationChange (durationChange initialState 2 11) 3 0).showPreviousAddresses = false ∧
     (durationChange (durationChange initialState 2 11) 3 0).previousAddresses = []) :=
  ⟨(addressTime_threshold_transitions initialState 2 11).1 (by decide) (by decide),
   (addressTime_threshold_transitions (durationChange initialState 2 11) 3 0).2
     ((addressTime_threshold_transitions initialState 2 11).1 (by decide) (by decide)).1
     (by decide)⟩

/-- C5: the previous-address derivation is edge-triggered: a duration
change that keeps `totalMonths < 36` while the section is already shown,
or keeps `totalMonths ≥ 36` while it is hidden, only writes the two
duration fields — in particular the `previousAddresses` list is left
exactly as the user had it. -/
theorem addressTime_edge_triggered (s : FormState) (y m : ℤ) :
    (s.showPreviousAddresses = true → y * 12 + m < 36 →
      durationChange s y m = setDuration s y m) ∧
    (s.showPreviousAddresses = false → 36 ≤ y * 12 + m →
      durationChange s y m = setDuration s y m) ∧
    (setDuration s y m).previousAddresses = s.previousAddresses := by
  refine ⟨?_, ?_, rfl⟩
  · intro h1 h2
    unfold durationChange handleAddressTimeChange setDuration totalMonths
    split_ifs with hc1 hc2
    · have hs : s.showPreviousAddresses = false := hc1.2
      rw [h1] at hs
      cases hs
    · have hge : (36 : ℤ) ≤ y * 12 + m := hc2.1
      exact absurd h2 (not_lt.mpr hge)
    · rfl
  · intro h1 h2
    unfold durationChange handleAddressTimeChange setDuration totalMonths
    split_ifs with hc1 hc2
    · have hlt : y * 12 + m < 36 := hc1.1
      exact absurd hlt (not_lt.mpr h2)
    · have hs : s.showPreviousAddresses = true := hc2.2
      rw [h1] at hs
      cases hs
    · rfl

/-- C5 witness: with the section visible (after a 35-month edit), moving
to 34 months leaves the one seeded entry untouched; with the section
hidden at the mount state, moving to 48 months changes only the duration
fields. -/
theorem addressTime_edge_triggered_witness :
    durationChange (durationChange initialState 2 11) 2 10 =
      setDuration (durationChange initialState 2 11) 2 10 ∧
    durationChange initialState 4 0 = setDuration initialState 4 0 :=
  ⟨(addressTime_edge_triggered (durationChange initialState 2 11) 2 10).1
      (by decide) (by decide),
   (addressTime_edge_triggered initialState 4 0).2.1 (by decide) (by decide)⟩

/-- C7: the communication-address toggle polarity: checking "this IS the
communication address" clears the nested record and hides the section;
unchecking allocates a fresh record with all six fields empty and shows
the section. -/
theorem communicationAddress_toggle_polarity (s : FormState) :
    ((handleCommunicationAddressChange true s).communicationAddress = none ∧
     (handleCommunicationAddressChange true s).showCommunicationAddress = false) ∧
    ((handleCommunicationAddressChange false s).communicationAddress =
        some emptyCommAddress ∧
     (handleCommunicationAddressChange false s).showCommunicationAddress = true) :=
  ⟨⟨rfl, rfl⟩, ⟨rfl, rfl⟩⟩

/-- Every event preserves the 3-entry bound on `previousAddresses`. -/
theorem step_preserves_prevLen (s : FormState) (e : Event)
    (h : s.previousAddresses.length ≤ 3) :
    (step s e).previousAddresses.length ≤ 3 := by
  cases e with
  | duration y m =>
      show (durationChange s y m).previousAddresses.length ≤ 3
      unfold durationChange handleAddressTimeChange setDuration
      split_ifs
      · simp
      · simp
      · exact h
  | addPrev =>
      show (addPreviousAddress s).previousAddresses.length ≤ 3
      unfold addPreviousAddress
      split_ifs with hlt
      · simp only [List.length_append, List.length_cons, List.length_nil]
        omega
      · exact h
  | commToggle c =>
      show (handleCommunicationAddressChange c s).previousAddresses.length ≤ 3
      unfold handleCommunicationAddressChange
      split_ifs <;> exact h
  | dualToggle c =>
      show (handleDualNationalityChange c s).previousAddresses.length ≤ 3
      unfold handleDualNationalityChange
      split_ifs <;> exact h
  | setSecondNationality v => simpa using h
  | editPrev i p =>
      show (s.previousAddresses.set i p).length ≤ 3
      simpa using h

/-- C4: in every reachable state of the form session the
`previousAddresses` list has at most 3 entries, and once it has exactly 3
the add-previous-address control is a no-op. -/
theorem previousAddresses_at_most_three (s : FormState) (h : Reachable s) :
    s.previousAddresses.length ≤ 3 ∧
    (s.previousAddresses.length = 3 → addPreviousAddress s = s) := by
  have hlen : s.previousAddresses.length ≤ 3 := by
    induction h with
    | init => simp [initialState]
    | step e hs ih => exact step_preserves_prevLen _ e ih
  refine ⟨hlen, fun h3 => ?_⟩
  unfold addPreviousAddress
  rw [if_neg (by omega)]

/-- C4 witness: the reachable state with 1 seeded and 2 manually added
entries has exactly 3 entries, is within the bound, and a further add is
a no-op. -/
theorem previousAddresses_at_most_three_witness :
    (step (step (step initialState (Event.duration 2 11)) Event.addPrev)
        Event.addPrev).previousAddresses.length ≤ 3 ∧
    addPreviousAddress
        (step (step (step initialState (Event.duration 2 11)) Event.addPrev)
          Event.addPrev) =
      step (step (step initialState (Event.duration 2 11)) Event.addPrev)
        Event.addPrev :=
  ⟨(previousAddresses_at_most_three _
      (Reachable.step Event.addPrev (Reachable.step Event.addPrev
        (Reachable.step (Event.duration 2 11) Reachable.init)))).1,
   (previousAddresses_at_most_three _
      (Reachable.step Event.addPrev (Reachable.step Event.addPrev
        (Reachable.step (Event.duration 2 11) Reachable.init)))).2 (by decide)⟩

/-- C6: `individualFormSchema` has no cross-field rule between
`hasDualNationality` and `secondNationality`: any record passing every
field rule still passes with the flag false and an arbitrary (for
instance non-empty) `secondNationality`. -/
theorem secondNationality_unconstrained (r : IndividualRecord) (v : String)
    (h : individualFormValid r = true) :
    individualFormValid
      { r with
          hasDualNationality := false,
          secondNationality := some v } = true :=
  h

/-- C6 witness: a concrete fully-valid record with
`hasDualNationality = false` and `secondNationality = "French"` is
accepted. -/
theorem secondNationality_unconstrained_witness :
    individualFormValid
      { sampleIndividual with
          hasDualNationality := false,
          secondNationality := some "French" } = true :=
  secondNationality_unconstrained sampleIndividual "French" (by decide)

end IndividualForm

namespace CorporateForm

/-- C8: `corporateFormSchema` accepts a record only when
`schemeRegistrationCountry` is exactly `"United Kingdom"`; any other
value makes the whole submission invalid, with an issue reported on that
field. -/
theorem schemeRegistrationCountry_fixed (r : CorporateRecord) :
    (corporateFormValid r = true → r.schemeRegistrationCountry = "United Kingdom") ∧
    (r.schemeRegistrationCountry ≠ "United Kingdom" →
      corporateFormValid r = false ∧
      "schemeRegistrationCountry" ∈ corporateErrors r) := by
  have hmem : r.schemeRegistrationCountry ≠ "United Kingdom" →
      "schemeRegistrationCountry" ∈ corporateErrors r := by
    intro hne
    refine List.mem_flatten.mpr ⟨["schemeRegistrationCountry"], ?_, by simp⟩
    simp [corporateErrors, errIf, hne]
  constructor
  · intro hv
    by_contra hne
    have h1 := hmem hne
    have h2 : corporateErrors r = [] := by
      simpa [corporateFormValid, decide_eq_true_iff] using hv
    rw [h2] at h1
    cases h1
  · intro hne
    refine ⟨?_, hmem hne⟩
    have h1 := hmem hne
    simp only [corporateFormValid, decide_eq_false_iff_not]
    intro h2
    rw [h2] at h1
    cases h1

/-- C8 witness: the concrete record `badCountryCorporate` (every other
rule satisfied, country `"France"`) is rejected with an issue on
`schemeRegistrationCountry`; and acceptance of `goodCorporate` entails
the field equals the literal. -/
theorem schemeRegistrationCountry_fixed_witness :
    (corporateFormValid goodCorporate = true →
      goodCorporate.schemeRegistrationCountry = "United Kingdom") ∧
    corporateFormValid badCountryCorporate = false ∧
    "schemeRegistrationCountry" ∈ corporateErrors badCountryCorporate :=
  ⟨(schemeRegistrationCountry_fixed goodCorporate).1,
   (schemeRegistrationCountry_fixed badCountryCorporate).2 (by decide)⟩

end CorporateForm

namespace FormHelpers

theorem isDigit_digitChar (d : ℕ) : (digitChar d).isDigit = true := by
  unfold digitChar
  split <;> decide

theorem charVal_digitChar (d : ℕ) (h : d < 10) : charVal (digitChar d) = d := by
  interval_cases d <;> decide

theorem digit_ne_special (c : Char) (h : c.isDigit = true) :
    c ≠ '-' ∧ c ≠ '+' ∧ c ≠ ' ' ∧ c ≠ '.' ∧ c ≠ ',' := by
  rw [isDigit_iff] at h
  refine ⟨fun he => ?_, fun he => ?_, fun he => ?_, fun he => ?_, fun he => ?_⟩ <;>
    rw [char_eq_iff] at he <;>
    simp only [show ('-' : Char).toNat = 45 from rfl, show ('+' : Char).toNat = 43 from rfl,
      show (' ' : Char).toNat = 32 from rfl, show ('.' : Char).toNat = 46 from rfl,
      show (',' : Char).toNat = 44 from rfl] at he <;>
    omega

theorem currencyKeep_of_isDigit (c : Char) (h : c.isDigit = true) : currencyKeep c = true := by
  simp [currencyKeep, h]

theorem filter_currencyKeep_of_digits (l : List Char) (h : ∀ c ∈ l, c.isDigit = true) :
    l.filter currencyKeep = l :=
  List.filter_eq_self.mpr fun c hc => currencyKeep_of_isDigit c (h c hc)

theorem filter_currencyKeep_groupRev (l : List Char) (h : ∀ c ∈ l, c.isDigit = true) :
    (groupRev l).filter currencyKeep = l := by
  match l with
  | a :: b :: c :: d :: rest =>
      have ih := filter_currencyKeep_groupRev (d :: rest)
        (fun x hx => h x (by simp at hx ⊢; tauto))
      rw [show groupRev (a :: b :: c :: d :: rest) =
        a :: b :: c :: ',' :: groupRev (d :: rest) from rfl]
      simp only [List.filter_cons, currencyKeep_of_isDigit a (h a (by simp)),
        currencyKeep_of_isDigit b (h b (by simp)),
        currencyKeep_of_isDigit c (h c (by simp)),
        show currencyKeep ',' = false from rfl, if_true, if_false]
      simp [ih]
  | [] => rfl
  | [a] =>
      rw [show groupRev [a] = [a] from rfl]
      exact filter_currencyKeep_of_digits [a] h
  | [a, b] =>
      rw [show groupRev [a, b] = [a, b] from rfl]
      exact filter_currencyKeep_of_digits [a, b] h
  | [a, b, c] =>
      rw [show groupRev [a, b, c] = [a, b, c] from rfl]
      exact filter_currencyKeep_of_digits [a, b, c] h

theorem beVal_append_singleton (l : List Char) (c : Char) :
    beVal (l ++ [c]) = 10 * beVal l + charVal c := by
  unfold beVal
  rw [List.foldl_append]
  rfl

theorem beVal_reverse_map (ds : List ℕ) (h : ∀ d ∈ ds, d < 10) :
    beVal ((ds.map digitChar).reverse) = Nat.ofDigits 10 ds := by
  induction ds with
  | nil => rfl
  | cons d t ih =>
      rw [List.map_cons, List.reverse_cons, beVal_append_singleton,
        ih (fun x hx => h x (List.mem_cons_of_mem _ hx)),
        charVal_digitChar d (h d (List.mem_cons_self _ _)), Nat.ofDigits_cons]
      omega

theorem beVal_intDigits (q : ℕ) : beVal (intDigits q) = q := by
  unfold intDigits
  split_ifs with h0
  · subst h0; rfl
  · unfold natToCharsRev
    rw [beVal_reverse_map _ (fun d hd => Nat.digits_lt_base (by norm_num) hd),
      Nat.ofDigits_digits]

theorem intDigits_all_digits (q : ℕ) : ∀ c ∈ intDigits q, c.isDigit = true := by
  intro c hc
  unfold intDigits at hc
  split_ifs at hc with h0
  · simp at hc; subst hc; decide
  · unfold natToCharsRev at hc
    rw [List.mem_reverse] at hc
    obtain ⟨d, hd, rfl⟩ := List.mem_map.mp hc
    exact isDigit_digitChar d

theorem intDigits_ne_nil (q : ℕ) : intDigits q ≠ [] := by
  unfold intDigits
  split_ifs with h0
  · simp
  · unfold natToCharsRev
    simp [Nat.digits_ne_nil_iff_ne_zero, h0]

theorem fracChars_all_digits (f : ℕ) : ∀ c ∈ fracChars f, c.isDigit = true := by
  intro c hc
  unfold fracChars at hc
  simp at hc
  rcases hc with rfl | rfl <;> exact isDigit_digitChar _

theorem beVal_fracChars (f : ℕ) (h : f < 100) : beVal (fracChars f) = f := by
  unfold fracChars beVal
  simp only [List.foldl_cons, List.foldl_nil]
  rw [charVal_digitChar (f / 10) (by omega), charVal_digitChar (f % 10) (by omega)]
  omega

theorem filter_intPartChars (q : ℕ) :
    (intPartChars q).filter currencyKeep = intDigits q := by
  unfold intPartChars intDigits
  split_ifs with h0
  · rfl
  · rw [List.filter_reverse,
      filter_currencyKeep_groupRev _ (fun c hc => by
        unfold natToCharsRev at hc
        obtain ⟨d, hd, rfl⟩ := List.mem_map.mp hc
        exact isDigit_digitChar d)]

theorem strip_intlFormatGBP (x : ℚ) :
    ((intlFormatGBP x).toList).filter currencyKeep =
      (if x < 0 then ['-'] else []) ++
        intDigits ((intCents x).natAbs / 100) ++
        '.' :: fracChars ((intCents x).natAbs % 100) := by
  show ((if x < 0 then ['-'] else []) ++ '£' ::
      intPartChars ((intCents x).natAbs / 100) ++
      '.' :: fracChars ((intCents x).natAbs % 100)).filter currencyKeep = _
  rw [List.filter_append, List.filter_append, List.filter_cons, List.filter_cons]
  rw [show currencyKeep '£' = false from by decide,
    show currencyKeep '.' = true from by decide]
  simp only [if_true, if_false, Bool.false_eq_true, ite_true, ite_false]
  rw [filter_intPartChars, filter_currencyKeep_of_digits _ (fracChars_all_digits _)]
  congr 2
  by_cases hx : x < 0
  · rw [if_pos hx]
    decide
  · rw [if_neg hx]
    rfl

end FormHelpers

namespace FormHelpers

theorem takeWhile_eq_self_of_all (p : Char → Bool) (l : List Char)
    (h : ∀ c ∈ l, p c = true) : l.takeWhile p = l := by
  induction l with
  | nil => rfl
  | cons a t ih =>
      rw [List.takeWhile_cons, if_pos (h a (List.mem_cons_self _ _)),
        ih (fun c hc => h c (List.mem_cons_of_mem _ hc))]

theorem takeWhile_append_all (p : Char → Bool) (l r : List Char)
    (h : ∀ c ∈ l, p c = true) : (l ++ r).takeWhile p = l ++ r.takeWhile p := by
  induction l with
  | nil => simp
  | cons a t ih =>
      rw [List.cons_append, List.takeWhile_cons, if_pos (h a (List.mem_cons_self _ _)),
        ih (fun c hc => h c (List.mem_cons_of_mem _ hc)), List.cons_append]

theorem dropWhile_append_all (p : Char → Bool) (l r : List Char)
    (h : ∀ c ∈ l, p c = true) : (l ++ r).dropWhile p = r.dropWhile p := by
  induction l with
  | nil => simp
  | cons a t ih =>
      rw [List.cons_append, List.dropWhile_cons, if_pos (h a (List.mem_cons_self _ _)),
        ih (fun c hc => h c (List.mem_cons_of_mem _ hc))]

theorem body_takeWhile (q f : ℕ) :
    (intDigits q ++ '.' :: fracChars f).takeWhile Char.isDigit = intDigits q := by
  rw [takeWhile_append_all _ _ _ (intDigits_all_digits q), List.takeWhile_cons,
    if_neg (by decide : ¬(Char.isDigit '.' = true)), List.append_nil]

theorem body_dropWhile (q f : ℕ) :
    (intDigits q ++ '.' :: fracChars f).dropWhile Char.isDigit = '.' :: fracChars f := by
  rw [dropWhile_append_all _ _ _ (intDigits_all_digits q), List.dropWhile_cons,
    if_neg (by decide : ¬(Char.isDigit '.' = true))]

theorem fracChars_length (f : ℕ) : (fracChars f).length = 2 := rfl

theorem jsParseFloatL_pos (q f : ℕ) (hf : f < 100) :
    jsParseFloatL (intDigits q ++ '.' :: fracChars f) =
      some ((q : ℚ) + (f : ℚ) / 100) := by
  obtain ⟨c0, t0, hq⟩ := List.exists_cons_of_ne_nil (intDigits_ne_nil q)
  have hd0 : c0.isDigit = true :=
    intDigits_all_digits q c0 (by rw [hq]; exact List.mem_cons_self _ _)
  have hne := digit_ne_special c0 hd0
  have hdrop : (intDigits q ++ '.' :: fracChars f).dropWhile (fun c => c = ' ') =
      intDigits q ++ '.' :: fracChars f := by
    rw [hq, List.cons_append, List.dropWhile_cons, if_neg]
    simp only [decide_eq_true_eq]
    exact hne.2.2.1
  have hhead : (intDigits q ++ '.' :: fracChars f).head? = some c0 := by
    rw [hq, List.cons_append, List.head?_cons]
  have hie : (intDigits q).isEmpty = false := by
    rw [hq]
    rfl
  unfold jsParseFloatL
  simp only [hdrop, hhead, Option.some.injEq, Bool.or_eq_true, decide_eq_true_eq,
    hne.1, hne.2.1, body_takeWhile, body_dropWhile, List.head?_cons, List.tail_cons,
    hie, takeWhile_eq_self_of_all Char.isDigit (fracChars f) (fracChars_all_digits f),
    fracChars_length, or_self, if_false, if_true, ite_true, ite_false, Bool.false_and,
    Bool.false_eq_true]
  rw [beVal_intDigits, beVal_fracChars f hf]
  norm_num

theorem jsParseFloatL_neg (q f : ℕ) (hf : f < 100) :
    jsParseFloatL ('-' :: (intDigits q ++ '.' :: fracChars f)) =
      some (-((q : ℚ) + (f : ℚ) / 100)) := by
  have hie : (intDigits q).isEmpty = false := by
    obtain ⟨c0, t0, hq⟩ := List.exists_cons_of_ne_nil (intDigits_ne_nil q)
    rw [hq]
    rfl
  unfold jsParseFloatL
  simp only [List.dropWhile_cons, decide_eq_true_eq,
    show ¬(('-' : Char) = ' ') from by decide, if_false, List.head?_cons,
    Option.some.injEq, Bool.or_eq_true, body_takeWhile, body_dropWhile,
    List.tail_cons, hie,
    takeWhile_eq_self_of_all Char.isDigit (fracChars f) (fracChars_all_digits f),
    fracChars_length, Bool.false_and, Bool.false_eq_true, ite_false, true_or, or_true,
    if_true, ite_true]
  rw [beVal_intDigits, beVal_fracChars f hf]
  norm_num

end FormHelpers

namespace FormHelpers

theorem natCast_div_add_mod (n : ℕ) :
    ((n / 100 : ℕ) : ℚ) + ((n % 100 : ℕ) : ℚ) / 100 = (n : ℚ) / 100 := by
  have h : (100 : ℚ) * ((n / 100 : ℕ) : ℚ) + ((n % 100 : ℕ) : ℚ) = (n : ℚ) := by
    exact_mod_cast Nat.div_add_mod n 100
  field_simp
  linarith

theorem intCents_nonneg (x : ℚ) (hx : 0 ≤ x) : 0 ≤ intCents x := by
  unfold intCents
  rw [if_pos hx]
  exact Int.floor_nonneg.mpr (by linarith)

theorem intCents_nonpos (x : ℚ) (hx : x < 0) : intCents x ≤ 0 := by
  unfold intCents
  rw [if_neg (not_le.mpr hx)]
  have h : (0 : ℤ) ≤ ⌊-x * 100 + 1 / 2⌋ := Int.floor_nonneg.mpr (by linarith)
  omega

/-- C3: the format-then-parse round trip: for every number `x`,
`parseCurrency (formatCurrency x)` recovers `x` rounded to 2 decimal
places — including negative values (the leading `-` survives the strip
pass) and values large enough to receive thousands separators (the commas
are stripped). -/
theorem parseCurrency_formatCurrency_roundTrip (x : ℚ) :
    parseCurrency (formatCurrency (JSNumber.num x)) = some (roundTo2 x) := by
  show parseCurrency (intlFormatGBP x) = some (roundTo2 x)
  have hmain : parseCurrency (intlFormatGBP x) =
      jsParseFloatL (((intlFormatGBP x).toList).filter currencyKeep) := rfl
  rw [hmain, strip_intlFormatGBP x]
  by_cases hx : x < 0
  · rw [if_pos hx]
    rw [show (['-'] : List Char) ++ intDigits ((intCents x).natAbs / 100) ++
        '.' :: fracChars ((intCents x).natAbs % 100) =
        '-' :: (intDigits ((intCents x).natAbs / 100) ++
          '.' :: fracChars ((intCents x).natAbs % 100)) from by simp]
    rw [jsParseFloatL_neg _ _ (Nat.mod_lt _ (by norm_num))]
    rw [natCast_div_add_mod]
    unfold roundTo2
    congr 1
    have hc : intCents x ≤ 0 := intCents_nonpos x hx
    have hcq : ((intCents x : ℤ) : ℚ) ≤ 0 := by exact_mod_cast hc
    rw [Int.cast_natAbs, Int.cast_abs, abs_of_nonpos hcq]
    ring
  · rw [if_neg hx, List.nil_append]
    rw [jsParseFloatL_pos _ _ (Nat.mod_lt _ (by norm_num))]
    rw [natCast_div_add_mod]
    unfold roundTo2
    congr 1
    have hc : 0 ≤ intCents x := intCents_nonneg x (not_lt.mp hx)
    have hcq : (0 : ℚ) ≤ ((intCents x : ℤ) : ℚ) := by exact_mod_cast hc
    rw [Int.cast_natAbs, Int.cast_abs, abs_of_nonneg hcq]

/-- C9: the formatting utilities never throw — each failure path is a
value: `formatDate` returns the input unchanged when date parsing fails
(the source's `try`/`catch` around date-fns `format`), `formatCurrency`
renders the `NaN` of a non-numeric string as the sentinel `"£NaN"`, and
`parseCurrency` yields the `NaN` sentinel (`none`) on non-numeric input. -/
theorem formatters_degrade_gracefully :
    (∀ s : String, jsParseDate s = none → formatDate s = s) ∧
    (∀ s : String, jsParseFloat s = none → formatCurrency (JSNumber.str s) = "£NaN") ∧
    (∀ s : String, jsParseFloat (stripCurrency s) = none → parseCurrency s = none) := by
  refine ⟨fun s h => ?_, fun s h => ?_, fun s h => ?_⟩
  · simp only [formatDate]
    rw [h]
  · simp only [formatCurrency]
    rw [h]
  · unfold parseCurrency
    exact h

/-- C9 witness: concrete soft failures of all three utilities. -/
theorem formatters_degrade_gracefully_witness :
    formatDate "not a date" = "not a date" ∧
    formatCurrency (JSNumber.str "abc") = "£NaN" ∧
    parseCurrency "n/a" = none :=
  ⟨formatters_degrade_gracefully.1 "not a date" (by decide),
   formatters_degrade_gracefully.2.1 "abc" (by decide),
   formatters_degrade_gracefully.2.2 "n/a" (by decide)⟩

end FormHelpers
